import Mathlib

/-
Verification of the proxy pool lifecycle engine in get-proxies.py.

The Python source is shallowly embedded: pure helper functions become Lean
functions over String and List String; stateful classes become structures
with explicit state-passing operations; network probes become Bool- or
Option-valued oracle parameters; the persisted JSON file becomes an
optional record (none models a missing or unreadable file, and an absent
key is an Option-valued field).
-/

/-! ## String utilities mirroring the Python primitives used by the code -/

/-- Model of the Python str.strip behaviour that int() applies to its
argument: leading and trailing whitespace is removed. -/
def pyStripChars (l : List Char) : List Char :=
  ((l.dropWhile Char.isWhitespace).reverse.dropWhile Char.isWhitespace).reverse

/-- Continuation of the digit grammar accepted by the Python int()
constructor: after the first digit, single underscores may appear, but
only between two digits. -/
def pyDigitsRest : List Char → Bool
  | [] => true
  | '_' :: c :: rest => c.isDigit && pyDigitsRest rest
  | c :: rest => c.isDigit && pyDigitsRest rest

/-- A nonempty digit sequence in the shape accepted by the Python int()
constructor: digits with optional single underscores between digits. -/
def pyDigits : List Char → Bool
  | [] => false
  | c :: rest => c.isDigit && pyDigitsRest rest

/-- Numeric value of a digit sequence, ignoring the underscore separators. -/
def digitsVal (l : List Char) : Nat :=
  (l.filter (fun c => !(c == '_'))).foldl (fun acc c => acc * 10 + (c.toNat - 48)) 0

/-- Model of the Python int(s) constructor on a string: strip whitespace,
allow one optional sign, then require a digit sequence; any other input
raises ValueError, modelled as none. -/
def pyInt? (s : String) : Option Int :=
  match pyStripChars s.data with
  | '+' :: rest => if pyDigits rest then some (Int.ofNat (digitsVal rest)) else none
  | '-' :: rest => if pyDigits rest then some (-(Int.ofNat (digitsVal rest))) else none
  | rest => if pyDigits rest then some (Int.ofNat (digitsVal rest)) else none

/-- Helper for splitting a character list at every colon. -/
def splitColonAux : List Char → List Char → List String
  | [], cur => [String.mk cur.reverse]
  | c :: rest, cur =>
      if c = ':' then String.mk cur.reverse :: splitColonAux rest []
      else splitColonAux rest (c :: cur)

/-- Model of the Python expression s.split(sep) with a colon separator:
the result always has at least one element, and the empty string splits
to a list holding one empty string. -/
def pySplitColon (s : String) : List String :=
  splitColonAux s.data []

/-! ## ProxyStorage and the shared port classifier -/

/-- The fixed port allow-list named ssl_ports in the source; shared by
ProxyStorage, ProxyValidator and SmartProxyManager. -/
def ssl_ports : List Int :=
  [443, 8443, 8442, 9443, 10443, 11443, 12443, 8080, 3128, 1080, 8081, 8888]

/-- The try-block of _is_ssl_capable_port: int(proxy.split(chr(58))[1]).
Indexing past the end of the split (no separator in the string) raises
IndexError and a non-numeric port segment raises ValueError; both are
modelled as none, matching the bare except that returns False. -/
def portOf (proxy : String) : Option Int :=
  match pySplitColon proxy with
  | _ :: seg :: _ => pyInt? seg
  | _ => none

/-- ProxyStorage._is_ssl_capable_port (the same body also appears on
ProxyValidator and SmartProxyManager): the port parsed from the second
colon-separated segment must belong to ssl_ports; any parse failure
yields False. -/
def _is_ssl_capable_port (proxy : String) : Bool :=
  match portOf proxy with
  | some port => ssl_ports.contains port
  | none => false

/-- ProxyStorage._deduplicate_list: first-occurrence-preserving
deduplication, written with the explicit seen accumulator of the source. -/
def dedupAux : List String → List String → List String
  | [], _ => []
  | p :: rest, seen =>
      if p ∈ seen then dedupAux rest seen
      else p :: dedupAux rest (p :: seen)

/-- ProxyStorage._deduplicate_list with the initially empty seen set. -/
def _deduplicate_list (l : List String) : List String :=
  dedupAux l []

/-- The persisted JSON snapshot. Absent keys are none. The derived
metadata written by save (saved_at and the three counts) is not read back
by load and is omitted from the model. -/
structure ProxyFile where
  working_proxies : Option (List String)
  ssl_proxies : Option (List String)
  http_proxies : Option (List String)

namespace ProxyStorage

/-- ProxyStorage.load_saved_proxies. The input none models a missing,
unreadable or malformed cache file, for which the method returns two
empty pools. A file with both separate pool keys takes the new-format
branch; otherwise the legacy combined list is deduplicated and split by
the port allow-list. -/
def load_saved_proxies (file : Option ProxyFile) : List String × List String :=
  match file with
  | none => ([], [])
  | some data =>
    match data.ssl_proxies, data.http_proxies with
    | some ssl, some http => (_deduplicate_list ssl, _deduplicate_list http)
    | _, _ =>
      let saved := _deduplicate_list (data.working_proxies.getD [])
      (saved.filter _is_ssl_capable_port,
       saved.filter (fun p => ! _is_ssl_capable_port p))

/-- ProxyStorage.save_working_proxies: both pools are deduplicated, then
the combined legacy key and the two separate pool keys are written. -/
def save_working_proxies (ssl_proxies http_proxies : List String) : ProxyFile :=
  let ssl := _deduplicate_list ssl_proxies
  let http := _deduplicate_list http_proxies
  { working_proxies := some (ssl ++ http),
    ssl_proxies := some ssl,
    http_proxies := some http }

end ProxyStorage

/-! ## ProxyRotator -/

/-- ProxyRotator state: the two pools (deques of endpoint strings) and the
two rotation cursors. -/
structure ProxyRotator where
  ssl_proxies : List String
  http_proxies : List String
  current_ssl_index : Nat
  current_http_index : Nat

/-- The common append-if-absent loop of add_ssl_proxies and
add_http_proxies: each incoming proxy is appended to the pool only when
not already present. -/
def addProxies (pool : List String) : List String → List String
  | [] => pool
  | p :: ps => addProxies (if p ∈ pool then pool else pool ++ [p]) ps

/-- The value dispensed by the common body of get_next_ssl_proxy and
get_next_http_proxy on one pool: an empty pool dispenses none, otherwise
the element at the cursor. -/
def rotate_value (pool : List String) (idx : Nat) : Option String :=
  if pool.isEmpty then none
  else some (pool.getD idx "")

/-- The cursor left behind by the common body of get_next_ssl_proxy and
get_next_http_proxy: an empty pool leaves the cursor alone, otherwise the
cursor advances modulo the pool size. -/
def rotate_advance (pool : List String) (idx : Nat) : Nat :=
  if pool.isEmpty then idx
  else (idx + 1) % pool.length

/-- The per-pool body of mark_proxy_dead: remove the proxy if present
(first occurrence, as deque.remove does) and reset the cursor to 0 when it
is not below the new pool size; the Bool reports whether a removal
happened. -/
def remove_dead (pool : List String) (idx : Nat) (proxy : String) :
    Bool × List String × Nat :=
  if proxy ∈ pool then
    let pool' := pool.erase proxy
    (true, pool', if pool'.length ≤ idx then 0 else idx)
  else (false, pool, idx)

namespace ProxyRotator

/-- ProxyRotator.add_ssl_proxies. -/
def add_ssl_proxies (r : ProxyRotator) (proxies : List String) : ProxyRotator :=
  { r with ssl_proxies := addProxies r.ssl_proxies proxies }

/-- ProxyRotator.add_http_proxies. -/
def add_http_proxies (r : ProxyRotator) (proxies : List String) : ProxyRotator :=
  { r with http_proxies := addProxies r.http_proxies proxies }

/-- ProxyRotator.get_next_ssl_proxy, returning the dispensed proxy and
the successor state. -/
def get_next_ssl_proxy (r : ProxyRotator) : Option String × ProxyRotator :=
  (rotate_value r.ssl_proxies r.current_ssl_index,
   { r with current_ssl_index := rotate_advance r.ssl_proxies r.current_ssl_index })

/-- ProxyRotator.get_next_http_proxy, returning the dispensed proxy and
the successor state. -/
def get_next_http_proxy (r : ProxyRotator) : Option String × ProxyRotator :=
  (rotate_value r.http_proxies r.current_http_index,
   { r with current_http_index := rotate_advance r.http_proxies r.current_http_index })

/-- ProxyRotator.mark_proxy_dead: defensive removal from both pools with
per-pool cursor reset; the Bool is the returned removed_from_any flag. -/
def mark_proxy_dead (r : ProxyRotator) (proxy : String) : Bool × ProxyRotator :=
  let s := remove_dead r.ssl_proxies r.current_ssl_index proxy
  let h := remove_dead r.http_proxies r.current_http_index proxy
  (s.1 || h.1, ⟨s.2.1, h.2.1, s.2.2, h.2.2⟩)

/-- Result of the n-plus-first consecutive call of get_next_ssl_proxy
(index 0 is the first call), threading the state returned by each call. -/
def rotateSslN (r : ProxyRotator) : Nat → Option String × ProxyRotator
  | 0 => get_next_ssl_proxy r
  | n + 1 => rotateSslN (get_next_ssl_proxy r).2 n

/-- Result of the n-plus-first consecutive call of get_next_http_proxy. -/
def rotateHttpN (r : ProxyRotator) : Nat → Option String × ProxyRotator
  | 0 => get_next_http_proxy r
  | n + 1 => rotateHttpN (get_next_http_proxy r).2 n

/-- The list of values dispensed by n consecutive get_next_ssl_proxy
calls. -/
def rotateOutputsSsl (r : ProxyRotator) : Nat → List (Option String)
  | 0 => []
  | n + 1 => (get_next_ssl_proxy r).1 :: rotateOutputsSsl (get_next_ssl_proxy r).2 n

/-- The list of values dispensed by n consecutive get_next_http_proxy
calls. -/
def rotateOutputsHttp (r : ProxyRotator) : Nat → List (Option String)
  | 0 => []
  | n + 1 => (get_next_http_proxy r).1 :: rotateOutputsHttp (get_next_http_proxy r).2 n

end ProxyRotator

/-- The cursor invariant of one pool: whenever the pool is nonempty the
cursor is a valid index. -/
def cursorOK (pool : List String) (idx : Nat) : Prop :=
  pool ≠ [] → idx < pool.length

/-! ## ProxyValidator -/

/-- The fixed rotating list of HTTPS test targets of
_validate_ssl_proxy_async. -/
def test_urls : List String :=
  ["https://icanhazip.com", "https://checkip.amazonaws.com",
   "https://ipinfo.io/ip", "https://httpbin.org/ip"]

/-- ProxyValidator._validate_ssl_proxy_async, with the network modelled by
two oracles giving, per test URL, the HTTP status of the strict-cert pass
and of the relaxed-cert pass (none models a raised or timed-out request).
The strict pass succeeds on the first URL answering 200; only if every
strict attempt fails is the relaxed pass tried, with the same rule;
otherwise the probe reports failure. -/
def _validate_ssl_proxy_async (strict relaxed : String → Option Nat) : Bool :=
  if test_urls.any (fun u => strict u == some 200) then true
  else if test_urls.any (fun u => relaxed u == some 200) then true
  else false

/-- Outcome of one validate_proxies_async call: the two working lists it
returns plus the validator dead set after the call. -/
structure ValidationOutcome where
  working_ssl : List String
  working_http : List String
  dead : List String

/-- ProxyValidator.validate_proxies_async with per-proxy probe oracles.
The input is partitioned by the port allow-list (in ssl_only mode the
non-SSL-presumed proxies are not tested at all); each tested proxy that
fails its probe is added to the dead set. The dead set is a Python set in
the source; it is modelled as a list whose membership is the observable. -/
def validate_proxies_async (probeSSL probeHTTP : String → Bool) (ssl_only : Bool)
    (dead : List String) (proxies : List String) : ValidationOutcome :=
  if proxies.isEmpty then ⟨[], [], dead⟩
  else
    let ssl_list := proxies.filter _is_ssl_capable_port
    let regular := if ssl_only then [] else proxies.filter (fun p => ! _is_ssl_capable_port p)
    ⟨ssl_list.filter probeSSL,
     regular.filter probeHTTP,
     dead ++ ssl_list.filter (fun p => ! probeSSL p)
          ++ regular.filter (fun p => ! probeHTTP p)⟩

/-! ## ProxyFetcher -/

/-- Result of one fetch_new_proxies_async run: the accumulated working
pools, the number of sources the loop iterated over, and how many times
the minimum-reached progress message was printed. -/
structure FetchResult where
  ssl : List String
  http : List String
  consulted : Nat
  minLogs : Nat

namespace ProxyFetcher

/-- The source loop of fetch_new_proxies_async. Each source is summarised
by what its candidates validate to: none models a source whose fetch
failed or produced no candidates (skipped with no effect), some (ws, wh)
the working SSL and HTTP endpoints of that source. After extending the
accumulators the running combined total is compared with the configured
minimum (log only) and with the hard-coded 20 (break). The consulted
count is the number of sources the loop body ran for. -/
def fetch_loop (minWorking : Nat) :
    List (Option (List String × List String)) →
    List String → List String → Nat → Nat → FetchResult
  | [], accS, accH, consulted, logs => ⟨accS, accH, consulted, logs⟩
  | none :: rest, accS, accH, consulted, logs =>
      fetch_loop minWorking rest accS accH (consulted + 1) logs
  | some (ws, wh) :: rest, accS, accH, consulted, logs =>
      let accS' := accS ++ ws
      let accH' := accH ++ wh
      let total := accS'.length + accH'.length
      let logs' := if minWorking ≤ total then logs + 1 else logs
      if 20 ≤ total then ⟨accS', accH', consulted + 1, logs'⟩
      else fetch_loop minWorking rest accS' accH' (consulted + 1) logs'

/-- ProxyFetcher.fetch_new_proxies_async starting from empty accumulators. -/
def fetch_new_proxies_async (minWorking : Nat)
    (sources : List (Option (List String × List String))) : FetchResult :=
  fetch_loop minWorking sources [] [] 0 0

/-- Combined working count contributed by one source. -/
def sourceYield : Option (List String × List String) → Nat
  | none => 0
  | some (ws, wh) => ws.length + wh.length

/-- Combined working count contributed by a list of sources. -/
def totalYield (srcs : List (Option (List String × List String))) : Nat :=
  (srcs.map sourceYield).sum

/-- Concatenation of the working SSL endpoints of every source. -/
def allSslYield : List (Option (List String × List String)) → List String
  | [] => []
  | none :: rest => allSslYield rest
  | some (ws, _) :: rest => ws ++ allSslYield rest

/-- Concatenation of the working HTTP endpoints of every source. -/
def allHttpYield : List (Option (List String × List String)) → List String
  | [] => []
  | none :: rest => allHttpYield rest
  | some (_, wh) :: rest => wh ++ allHttpYield rest

end ProxyFetcher

/-! ## SmartProxyManager -/

/-- SmartProxyManager state: the owned rotator, the dead set of the owned
ProxyValidator, the three legacy mirror attributes, and the managers own
legacy dead set. -/
structure SmartProxyManager where
  rotator : ProxyRotator
  validator_dead : List String
  working_proxies : List String
  ssl_proxies : List String
  http_proxies : List String
  dead_proxies : List String

namespace SmartProxyManager

/-- The state built by the SmartProxyManager constructor: every pool,
cursor and set starts empty. -/
def initManager : SmartProxyManager :=
  ⟨⟨[], [], 0, 0⟩, [], [], [], [], []⟩

/-- SmartProxyManager.load_saved_proxies: load both pools from storage,
insert them into the rotator, refresh the legacy mirrors. -/
def load_saved_proxies (m : SmartProxyManager) (file : Option ProxyFile) :
    SmartProxyManager :=
  let pools := ProxyStorage.load_saved_proxies file
  let r := (m.rotator.add_ssl_proxies pools.1).add_http_proxies pools.2
  { m with rotator := r,
           ssl_proxies := r.ssl_proxies,
           http_proxies := r.http_proxies,
           working_proxies := r.ssl_proxies ++ r.http_proxies }

/-- SmartProxyManager.quick_validate_proxies: run the validator over the
given proxies, insert only the working ones into the rotator, refresh the
legacy mirrors. An empty input returns immediately without touching any
state. -/
def quick_validate_proxies (m : SmartProxyManager)
    (probeSSL probeHTTP : String → Bool) (ssl_only : Bool)
    (proxies : List String) : SmartProxyManager :=
  if proxies.isEmpty then m
  else
    let out := validate_proxies_async probeSSL probeHTTP ssl_only m.validator_dead proxies
    let r := (m.rotator.add_ssl_proxies out.working_ssl).add_http_proxies out.working_http
    { m with rotator := r,
             validator_dead := out.dead,
             ssl_proxies := r.ssl_proxies,
             http_proxies := r.http_proxies,
             working_proxies := r.ssl_proxies ++ r.http_proxies }

/-- SmartProxyManager.mark_proxy_dead: delegate to the rotator; only when
something was removed does the manager record the proxy in its dead set,
refresh the legacy mirrors and persist. The Bool reports whether
save_working_proxies was called. -/
def mark_proxy_dead (m : SmartProxyManager) (proxy : String) :
    SmartProxyManager × Bool :=
  let res := m.rotator.mark_proxy_dead proxy
  if res.1 then
    ({ m with rotator := res.2,
              dead_proxies := m.dead_proxies ++ [proxy],
              ssl_proxies := res.2.ssl_proxies,
              http_proxies := res.2.http_proxies,
              working_proxies := res.2.ssl_proxies ++ res.2.http_proxies }, true)
  else ({ m with rotator := res.2 }, false)

end SmartProxyManager

/-! ## Lemmas about the deduplication helper -/

lemma mem_dedupAux : ∀ (l seen : List String) (x : String),
    x ∈ dedupAux l seen ↔ x ∈ l ∧ x ∉ seen := by
  intro l
  induction l with
  | nil => intro seen x; simp [dedupAux]
  | cons p rest ih =>
    intro seen x
    by_cases hp : p ∈ seen
    · rw [dedupAux, if_pos hp, ih, List.mem_cons]
      constructor
      · rintro ⟨hr, hs⟩; exact ⟨Or.inr hr, hs⟩
      · rintro ⟨h | h, hs⟩
        · exact absurd (h ▸ hp) hs
        · exact ⟨h, hs⟩
    · rw [dedupAux, if_neg hp]
      have hxs : x = p → x ∉ seen := fun h => h ▸ hp
      simp only [List.mem_cons, ih]
      tauto

lemma dedupAux_nodup : ∀ (l seen : List String), (dedupAux l seen).Nodup := by
  intro l
  induction l with
  | nil => intro seen; simp [dedupAux]
  | cons p rest ih =>
    intro seen
    by_cases hp : p ∈ seen
    · rw [dedupAux, if_pos hp]; exact ih _
    · rw [dedupAux, if_neg hp, List.nodup_cons]
      refine ⟨fun hmem => ?_, ih _⟩
      exact ((mem_dedupAux _ _ _).mp hmem).2 (List.mem_cons_self _ _)

lemma dedupAux_eq_self : ∀ (l seen : List String), l.Nodup →
    (∀ x ∈ l, x ∉ seen) → dedupAux l seen = l := by
  intro l
  induction l with
  | nil => intro seen _ _; rfl
  | cons p rest ih =>
    intro seen hnd hout
    rw [List.nodup_cons] at hnd
    rw [dedupAux, if_neg (hout p (List.mem_cons_self _ _))]
    refine congrArg _ (ih _ hnd.2 fun x hx => ?_)
    rw [List.mem_cons]
    push_neg
    exact ⟨fun he => hnd.1 (he ▸ hx), hout x (List.mem_cons_of_mem _ hx)⟩

lemma deduplicate_nodup (l : List String) : (_deduplicate_list l).Nodup :=
  dedupAux_nodup l []

lemma mem_deduplicate (l : List String) (x : String) :
    x ∈ _deduplicate_list l ↔ x ∈ l := by
  rw [_deduplicate_list, mem_dedupAux]
  simp

lemma deduplicate_eq_self {l : List String} (h : l.Nodup) :
    _deduplicate_list l = l :=
  dedupAux_eq_self l [] h (by simp)

lemma deduplicate_idem (l : List String) :
    _deduplicate_list (_deduplicate_list l) = _deduplicate_list l :=
  deduplicate_eq_self (deduplicate_nodup l)

/-! ## Claims C6, C8, C9 about ProxyStorage -/

/-- C6: with only the legacy combined working list on disk, load
reclassifies each deduplicated entry by the fixed port allow-list,
sending allow-listed ports to the SSL pool and every other entry to the
HTTP pool, preserving order; on the two-entry example file this yields
the stated pools. -/
theorem legacy_load_reclassifies_by_port_allow_list :
    (∀ l : List String,
      ProxyStorage.load_saved_proxies (some ⟨some l, none, none⟩)
        = ((_deduplicate_list l).filter _is_ssl_capable_port,
           (_deduplicate_list l).filter (fun p => ! _is_ssl_capable_port p)))
    ∧ (∀ (s : String) (port : Int), portOf s = some port →
        (_is_ssl_capable_port s = true ↔ port ∈ ssl_ports))
    ∧ (∀ port : Int, port ∈ ssl_ports ↔
        (port = 443 ∨ port = 8443 ∨ port = 8442 ∨ port = 9443 ∨ port = 10443 ∨
         port = 11443 ∨ port = 12443 ∨ port = 8080 ∨ port = 3128 ∨ port = 1080 ∨
         port = 8081 ∨ port = 8888))
    ∧ ProxyStorage.load_saved_proxies
        (some ⟨some ["1.2.3.4:443", "5.6.7.8:80"], none, none⟩)
        = (["1.2.3.4:443"], ["5.6.7.8:80"]) := by
  refine ⟨fun l => rfl, fun s port h => ?_, fun port => ?_, by decide⟩
  · rw [_is_ssl_capable_port, h]
    simp [List.contains]
  · simp [ssl_ports]

/-- Witness for C6 at concrete inputs: the legacy example file and the
port 443 entry. -/
theorem legacy_load_reclassifies_by_port_allow_list_witness :
    (ProxyStorage.load_saved_proxies (some ⟨some ["9.9.9.9:3128"], none, none⟩)
      = ((_deduplicate_list ["9.9.9.9:3128"]).filter _is_ssl_capable_port,
         (_deduplicate_list ["9.9.9.9:3128"]).filter (fun p => ! _is_ssl_capable_port p)))
    ∧ (_is_ssl_capable_port "1.2.3.4:443" = true ↔ (443 : Int) ∈ ssl_ports)
    ∧ ((443 : Int) ∈ ssl_ports ↔
        ((443 : Int) = 443 ∨ (443 : Int) = 8443 ∨ (443 : Int) = 8442 ∨
         (443 : Int) = 9443 ∨ (443 : Int) = 10443 ∨ (443 : Int) = 11443 ∨
         (443 : Int) = 12443 ∨ (443 : Int) = 8080 ∨ (443 : Int) = 3128 ∨
         (443 : Int) = 1080 ∨ (443 : Int) = 8081 ∨ (443 : Int) = 8888)) :=
  ⟨legacy_load_reclassifies_by_port_allow_list.1 ["9.9.9.9:3128"],
   legacy_load_reclassifies_by_port_allow_list.2.1 "1.2.3.4:443" 443 (by decide),
   legacy_load_reclassifies_by_port_allow_list.2.2.1 443⟩

/-- C8: saving two pools and loading them back returns exactly their
first-occurrence deduplications, and is the identity on duplicate-free
pools. -/
theorem save_then_load_roundtrip :
    (∀ ssl http : List String,
      ProxyStorage.load_saved_proxies (some (ProxyStorage.save_working_proxies ssl http))
        = (_deduplicate_list ssl, _deduplicate_list http))
    ∧ (∀ ssl http : List String, ssl.Nodup → http.Nodup →
      ProxyStorage.load_saved_proxies (some (ProxyStorage.save_working_proxies ssl http))
        = (ssl, http)) := by
  have h1 : ∀ ssl http : List String,
      ProxyStorage.load_saved_proxies (some (ProxyStorage.save_working_proxies ssl http))
        = (_deduplicate_list ssl, _deduplicate_list http) := by
    intro ssl http
    rw [ProxyStorage.save_working_proxies, ProxyStorage.load_saved_proxies]
    simp [deduplicate_idem]
  refine ⟨h1, fun ssl http hs hh => ?_⟩
  rw [h1, deduplicate_eq_self hs, deduplicate_eq_self hh]

/-- Witness for C8 on concrete duplicate-free pools. -/
theorem save_then_load_roundtrip_witness :
    ProxyStorage.load_saved_proxies
      (some (ProxyStorage.save_working_proxies ["1.2.3.4:443"] ["5.6.7.8:80"]))
      = (["1.2.3.4:443"], ["5.6.7.8:80"]) :=
  save_then_load_roundtrip.2 ["1.2.3.4:443"] ["5.6.7.8:80"] (by decide) (by decide)

/-- C9: the port classifier is total and treats every unparsable port as
non-SSL, so a malformed entry in a legacy file is routed to the HTTP pool
instead of aborting the load: it lands in the returned HTTP pool and not
in the SSL pool. -/
theorem malformed_port_routes_to_http :
    (∀ s : String, portOf s = none → _is_ssl_capable_port s = false)
    ∧ _is_ssl_capable_port "" = false
    ∧ _is_ssl_capable_port "1.2.3.4" = false
    ∧ _is_ssl_capable_port "1.2.3.4:abc" = false
    ∧ (∀ (l : List String) (e : String), e ∈ l → portOf e = none →
        e ∈ (ProxyStorage.load_saved_proxies (some ⟨some l, none, none⟩)).2
        ∧ e ∉ (ProxyStorage.load_saved_proxies (some ⟨some l, none, none⟩)).1) := by
  have hfalse : ∀ s : String, portOf s = none → _is_ssl_capable_port s = false := by
    intro s h
    rw [_is_ssl_capable_port, h]
  refine ⟨hfalse, by decide, by decide, by decide, fun l e hmem hnone => ?_⟩
  have hd : e ∈ _deduplicate_list l := (mem_deduplicate l e).mpr hmem
  constructor
  · show e ∈ (_deduplicate_list l).filter (fun p => ! _is_ssl_capable_port p)
    exact List.mem_filter.mpr ⟨hd, by rw [hfalse e hnone]; rfl⟩
  · show e ∉ (_deduplicate_list l).filter _is_ssl_capable_port
    intro hin
    have := (List.mem_filter.mp hin).2
    rw [hfalse e hnone] at this
    exact Bool.false_ne_true this

/-- Witness for C9 on a legacy file holding one malformed entry. -/
theorem malformed_port_routes_to_http_witness :
    _is_ssl_capable_port "1.2.3.4:abc" = false
    ∧ ("1.2.3.4:abc" ∈ (ProxyStorage.load_saved_proxies
          (some ⟨some ["1.2.3.4:abc"], none, none⟩)).2
      ∧ "1.2.3.4:abc" ∉ (ProxyStorage.load_saved_proxies
          (some ⟨some ["1.2.3.4:abc"], none, none⟩)).1) :=
  ⟨malformed_port_routes_to_http.1 "1.2.3.4:abc" (by decide),
   malformed_port_routes_to_http.2.2.2.2 ["1.2.3.4:abc"] "1.2.3.4:abc"
     (by decide) (by decide)⟩

/-! ## Lemmas about rotation and eviction -/

lemma rotate_value_of_ne_nil (pool : List String) (idx : Nat) (h : pool ≠ []) :
    rotate_value pool idx = some (pool.getD idx "") := by
  have he : pool.isEmpty = false := List.isEmpty_eq_false.mpr h
  simp [rotate_value, he]

lemma rotate_advance_of_ne_nil (pool : List String) (idx : Nat) (h : pool ≠ []) :
    rotate_advance pool idx = (idx + 1) % pool.length := by
  have he : pool.isEmpty = false := List.isEmpty_eq_false.mpr h
  simp [rotate_advance, he]

lemma rotate_advance_lt (pool : List String) (idx : Nat) (h : pool ≠ []) :
    rotate_advance pool idx < pool.length := by
  rw [rotate_advance_of_ne_nil pool idx h]
  exact Nat.mod_lt _ (List.length_pos.mpr h)

namespace ProxyRotator

lemma get_next_ssl_snd_ssl (r : ProxyRotator) :
    (r.get_next_ssl_proxy).2.ssl_proxies = r.ssl_proxies := rfl

lemma get_next_http_snd_http (r : ProxyRotator) :
    (r.get_next_http_proxy).2.http_proxies = r.http_proxies := rfl

lemma rotateSslN_fst_of_lt (r : ProxyRotator)
    (h : r.current_ssl_index < r.ssl_proxies.length) : ∀ n : Nat,
    (r.rotateSslN n).1
      = some (r.ssl_proxies.getD ((r.current_ssl_index + n) % r.ssl_proxies.length) "") := by
  intro n
  induction n generalizing r with
  | zero =>
    have hne : r.ssl_proxies ≠ [] :=
      List.length_pos.mp (Nat.lt_of_le_of_lt (Nat.zero_le _) h)
    show rotate_value r.ssl_proxies r.current_ssl_index = _
    rw [rotate_value_of_ne_nil _ _ hne, Nat.add_zero, Nat.mod_eq_of_lt h]
  | succ n ih =>
    have hne : r.ssl_proxies ≠ [] :=
      List.length_pos.mp (Nat.lt_of_le_of_lt (Nat.zero_le _) h)
    have hv : (r.get_next_ssl_proxy).2.current_ssl_index
        < (r.get_next_ssl_proxy).2.ssl_proxies.length := by
      show rotate_advance r.ssl_proxies r.current_ssl_index < r.ssl_proxies.length
      exact rotate_advance_lt _ _ hne
    have hrec := ih (r.get_next_ssl_proxy).2 hv
    show ((r.get_next_ssl_proxy).2.rotateSslN n).1 = _
    rw [hrec]
    show some (r.ssl_proxies.getD
        ((rotate_advance r.ssl_proxies r.current_ssl_index + n) % r.ssl_proxies.length) "") = _
    rw [rotate_advance_of_ne_nil _ _ hne, Nat.mod_add_mod,
        (by omega : r.current_ssl_index + 1 + n = r.current_ssl_index + (n + 1))]

lemma rotateHttpN_fst_of_lt (r : ProxyRotator)
    (h : r.current_http_index < r.http_proxies.length) : ∀ n : Nat,
    (r.rotateHttpN n).1
      = some (r.http_proxies.getD ((r.current_http_index + n) % r.http_proxies.length) "") := by
  intro n
  induction n generalizing r with
  | zero =>
    have hne : r.http_proxies ≠ [] :=
      List.length_pos.mp (Nat.lt_of_le_of_lt (Nat.zero_le _) h)
    show rotate_value r.http_proxies r.current_http_index = _
    rw [rotate_value_of_ne_nil _ _ hne, Nat.add_zero, Nat.mod_eq_of_lt h]
  | succ n ih =>
    have hne : r.http_proxies ≠ [] :=
      List.length_pos.mp (Nat.lt_of_le_of_lt (Nat.zero_le _) h)
    have hv : (r.get_next_http_proxy).2.current_http_index
        < (r.get_next_http_proxy).2.http_proxies.length := by
      show rotate_advance r.http_proxies r.current_http_index < r.http_proxies.length
      exact rotate_advance_lt _ _ hne
    have hrec := ih (r.get_next_http_proxy).2 hv
    show ((r.get_next_http_proxy).2.rotateHttpN n).1 = _
    rw [hrec]
    show some (r.http_proxies.getD
        ((rotate_advance r.http_proxies r.current_http_index + n) % r.http_proxies.length) "") = _
    rw [rotate_advance_of_ne_nil _ _ hne, Nat.mod_add_mod,
        (by omega : r.current_http_index + 1 + n = r.current_http_index + (n + 1))]

lemma rotateSslN_fst_none (r : ProxyRotator) (h : r.ssl_proxies = []) :
    ∀ n : Nat, (r.rotateSslN n).1 = none := by
  intro n
  induction n generalizing r with
  | zero =>
    show rotate_value r.ssl_proxies r.current_ssl_index = none
    rw [h]
    rfl
  | succ n ih =>
    show ((r.get_next_ssl_proxy).2.rotateSslN n).1 = none
    exact ih _ h

lemma rotateHttpN_fst_none (r : ProxyRotator) (h : r.http_proxies = []) :
    ∀ n : Nat, (r.rotateHttpN n).1 = none := by
  intro n
  induction n generalizing r with
  | zero =>
    show rotate_value r.http_proxies r.current_http_index = none
    rw [h]
    rfl
  | succ n ih =>
    show ((r.get_next_http_proxy).2.rotateHttpN n).1 = none
    exact ih _ h

lemma rotateSslN_ne_of_not_mem (r : ProxyRotator) (e : String)
    (hv : cursorOK r.ssl_proxies r.current_ssl_index)
    (he : e ∉ r.ssl_proxies) : ∀ n : Nat, (r.rotateSslN n).1 ≠ some e := by
  intro n
  by_cases hnil : r.ssl_proxies = []
  · rw [rotateSslN_fst_none r hnil n]
    simp
  · rw [rotateSslN_fst_of_lt r (hv hnil) n]
    intro hcontra
    have hidx : (r.current_ssl_index + n) % r.ssl_proxies.length < r.ssl_proxies.length :=
      Nat.mod_lt _ (List.length_pos.mpr hnil)
    have hmem : r.ssl_proxies.getD ((r.current_ssl_index + n) % r.ssl_proxies.length) ""
        ∈ r.ssl_proxies := by
      rw [List.getD_eq_getElem _ _ hidx]
      exact List.getElem_mem hidx
    exact he ((Option.some.inj hcontra) ▸ hmem)

lemma rotateHttpN_ne_of_not_mem (r : ProxyRotator) (e : String)
    (hv : cursorOK r.http_proxies r.current_http_index)
    (he : e ∉ r.http_proxies) : ∀ n : Nat, (r.rotateHttpN n).1 ≠ some e := by
  intro n
  by_cases hnil : r.http_proxies = []
  · rw [rotateHttpN_fst_none r hnil n]
    simp
  · rw [rotateHttpN_fst_of_lt r (hv hnil) n]
    intro hcontra
    have hidx : (r.current_http_index + n) % r.http_proxies.length < r.http_proxies.length :=
      Nat.mod_lt _ (List.length_pos.mpr hnil)
    have hmem : r.http_proxies.getD ((r.current_http_index + n) % r.http_proxies.length) ""
        ∈ r.http_proxies := by
      rw [List.getD_eq_getElem _ _ hidx]
      exact List.getElem_mem hidx
    exact he ((Option.some.inj hcontra) ▸ hmem)

lemma rotateOutputsSsl_spec (r : ProxyRotator) : ∀ k : Nat,
    r.current_ssl_index + k ≤ r.ssl_proxies.length →
    r.rotateOutputsSsl k
      = ((r.ssl_proxies.drop r.current_ssl_index).take k).map some := by
  intro k
  induction k generalizing r with
  | zero => intro _; rfl
  | succ k ih =>
    intro hk
    have hc : r.current_ssl_index < r.ssl_proxies.length := by omega
    have hne : r.ssl_proxies ≠ [] := List.length_pos.mp (by omega)
    have hhead : (r.get_next_ssl_proxy).1
        = some (r.ssl_proxies.getD r.current_ssl_index "") := by
      show rotate_value r.ssl_proxies r.current_ssl_index = _
      exact rotate_value_of_ne_nil _ _ hne
    show (r.get_next_ssl_proxy).1 :: (r.get_next_ssl_proxy).2.rotateOutputsSsl k = _
    by_cases hlast : r.current_ssl_index + 1 = r.ssl_proxies.length
    · have hk0 : k = 0 := by omega
      subst hk0
      rw [hhead]
      show [some (r.ssl_proxies.getD r.current_ssl_index "")] = _
      rw [List.drop_eq_getElem_cons hc, List.drop_eq_nil_of_le (by omega),
          List.getD_eq_getElem _ _ hc]
      rfl
    · have hlt' : r.current_ssl_index + 1 < r.ssl_proxies.length := by omega
      have hcur : (r.get_next_ssl_proxy).2.current_ssl_index = r.current_ssl_index + 1 := by
        show rotate_advance r.ssl_proxies r.current_ssl_index = _
        rw [rotate_advance_of_ne_nil _ _ hne, Nat.mod_eq_of_lt hlt']
      have hrec := ih (r.get_next_ssl_proxy).2 (by
        rw [get_next_ssl_snd_ssl, hcur]
        omega)
      rw [hhead, hrec, get_next_ssl_snd_ssl, hcur]
      rw [List.drop_eq_getElem_cons hc, List.take_succ_cons, List.map_cons]
      rw [List.getD_eq_getElem _ _ hc]

lemma rotateOutputsHttp_spec (r : ProxyRotator) : ∀ k : Nat,
    r.current_http_index + k ≤ r.http_proxies.length →
    r.rotateOutputsHttp k
      = ((r.http_proxies.drop r.current_http_index).take k).map some := by
  intro k
  induction k generalizing r with
  | zero => intro _; rfl
  | succ k ih =>
    intro hk
    have hc : r.current_http_index < r.http_proxies.length := by omega
    have hne : r.http_proxies ≠ [] := List.length_pos.mp (by omega)
    have hhead : (r.get_next_http_proxy).1
        = some (r.http_proxies.getD r.current_http_index "") := by
      show rotate_value r.http_proxies r.current_http_index = _
      exact rotate_value_of_ne_nil _ _ hne
    show (r.get_next_http_proxy).1 :: (r.get_next_http_proxy).2.rotateOutputsHttp k = _
    by_cases hlast : r.current_http_index + 1 = r.http_proxies.length
    · have hk0 : k = 0 := by omega
      subst hk0
      rw [hhead]
      show [some (r.http_proxies.getD r.current_http_index "")] = _
      rw [List.drop_eq_getElem_cons hc, List.drop_eq_nil_of_le (by omega),
          List.getD_eq_getElem _ _ hc]
      rfl
    · have hlt' : r.current_http_index + 1 < r.http_proxies.length := by omega
      have hcur : (r.get_next_http_proxy).2.current_http_index = r.current_http_index + 1 := by
        show rotate_advance r.http_proxies r.current_http_index = _
        rw [rotate_advance_of_ne_nil _ _ hne, Nat.mod_eq_of_lt hlt']
      have hrec := ih (r.get_next_http_proxy).2 (by
        rw [get_next_http_snd_http, hcur]
        omega)
      rw [hhead, hrec, get_next_http_snd_http, hcur]
      rw [List.drop_eq_getElem_cons hc, List.take_succ_cons, List.map_cons]
      rw [List.getD_eq_getElem _ _ hc]

end ProxyRotator

lemma remove_dead_of_not_mem (pool : List String) (idx : Nat) (proxy : String)
    (h : proxy ∉ pool) : remove_dead pool idx proxy = (false, pool, idx) := by
  simp [remove_dead, h]

lemma remove_dead_of_mem (pool : List String) (idx : Nat) (proxy : String)
    (h : proxy ∈ pool) :
    remove_dead pool idx proxy
      = (true, pool.erase proxy,
         if (pool.erase proxy).length ≤ idx then 0 else idx) := by
  simp [remove_dead, h]

lemma remove_dead_not_mem (pool : List String) (idx : Nat) (proxy : String)
    (hnd : pool.Nodup) : proxy ∉ (remove_dead pool idx proxy).2.1 := by
  by_cases h : proxy ∈ pool
  · rw [remove_dead_of_mem pool idx proxy h]
    exact hnd.not_mem_erase
  · rw [remove_dead_of_not_mem pool idx proxy h]
    exact h

lemma remove_dead_cursorOK (pool : List String) (idx : Nat) (proxy : String)
    (hc : cursorOK pool idx) :
    cursorOK (remove_dead pool idx proxy).2.1 (remove_dead pool idx proxy).2.2 := by
  by_cases h : proxy ∈ pool
  · rw [remove_dead_of_mem pool idx proxy h]
    show cursorOK (pool.erase proxy) (if (pool.erase proxy).length ≤ idx then 0 else idx)
    by_cases hle : (pool.erase proxy).length ≤ idx
    · rw [if_pos hle]
      intro hne
      exact List.length_pos.mpr hne
    · rw [if_neg hle]
      intro _
      omega
  · rw [remove_dead_of_not_mem pool idx proxy h]
    exact hc

lemma mark_proxy_dead_snd (r : ProxyRotator) (proxy : String) :
    (r.mark_proxy_dead proxy).2
      = ⟨(remove_dead r.ssl_proxies r.current_ssl_index proxy).2.1,
         (remove_dead r.http_proxies r.current_http_index proxy).2.1,
         (remove_dead r.ssl_proxies r.current_ssl_index proxy).2.2,
         (remove_dead r.http_proxies r.current_http_index proxy).2.2⟩ := rfl

lemma mark_proxy_dead_fst (r : ProxyRotator) (proxy : String) :
    (r.mark_proxy_dead proxy).1
      = ((remove_dead r.ssl_proxies r.current_ssl_index proxy).1
          || (remove_dead r.http_proxies r.current_http_index proxy).1) := rfl

/-! ## Claims C7, C2, C10, C3 about the rotator -/

/-- C7: from cursor 0, a pool of size N dispenses its N endpoints exactly
once in insertion order over N get_next calls, and the call after that
dispenses the first endpoint again; this holds for both pools. -/
theorem rotation_round_robin_fairness (r : ProxyRotator)
    (hs : r.current_ssl_index = 0) (hh : r.current_http_index = 0) :
    (r.rotateOutputsSsl r.ssl_proxies.length = r.ssl_proxies.map some)
    ∧ (r.ssl_proxies ≠ [] →
        (r.rotateSslN r.ssl_proxies.length).1 = some (r.ssl_proxies.getD 0 ""))
    ∧ (r.rotateOutputsHttp r.http_proxies.length = r.http_proxies.map some)
    ∧ (r.http_proxies ≠ [] →
        (r.rotateHttpN r.http_proxies.length).1 = some (r.http_proxies.getD 0 "")) := by
  refine ⟨?_, ?_, ?_, ?_⟩
  · have h := ProxyRotator.rotateOutputsSsl_spec r r.ssl_proxies.length (by omega)
    rw [h, hs, List.drop_zero, List.take_length]
  · intro hne
    have h0 : r.current_ssl_index < r.ssl_proxies.length := by
      rw [hs]
      exact List.length_pos.mpr hne
    rw [ProxyRotator.rotateSslN_fst_of_lt r h0, hs, Nat.zero_add, Nat.mod_self]
  · have h := ProxyRotator.rotateOutputsHttp_spec r r.http_proxies.length (by omega)
    rw [h, hh, List.drop_zero, List.take_length]
  · intro hne
    have h0 : r.current_http_index < r.http_proxies.length := by
      rw [hh]
      exact List.length_pos.mpr hne
    rw [ProxyRotator.rotateHttpN_fst_of_lt r h0, hh, Nat.zero_add, Nat.mod_self]

/-- Witness for C7 on a two-element SSL pool and a one-element HTTP pool. -/
theorem rotation_round_robin_fairness_witness :
    (ProxyRotator.rotateOutputsSsl ⟨["1.1.1.1:443", "2.2.2.2:8080"], ["3.3.3.3:80"], 0, 0⟩ 2
        = [some "1.1.1.1:443", some "2.2.2.2:8080"])
    ∧ ((ProxyRotator.rotateSslN ⟨["1.1.1.1:443", "2.2.2.2:8080"], ["3.3.3.3:80"], 0, 0⟩ 2).1
        = some "1.1.1.1:443")
    ∧ (ProxyRotator.rotateOutputsHttp ⟨["1.1.1.1:443", "2.2.2.2:8080"], ["3.3.3.3:80"], 0, 0⟩ 1
        = [some "3.3.3.3:80"])
    ∧ ((ProxyRotator.rotateHttpN ⟨["1.1.1.1:443", "2.2.2.2:8080"], ["3.3.3.3:80"], 0, 0⟩ 1).1
        = some "3.3.3.3:80") := by
  have h := rotation_round_robin_fairness
    ⟨["1.1.1.1:443", "2.2.2.2:8080"], ["3.3.3.3:80"], 0, 0⟩ rfl rfl
  exact ⟨h.1, h.2.1 (by decide), h.2.2.1, h.2.2.2 (by decide)⟩

/-- C2: marking an endpoint of a pool dead removes it from both pools, no
subsequent get_next call (with no intervening additions) can dispense it,
each cursor stays within bounds whenever its pool is nonempty, and a
cursor pushed out of range by the removal is reset to 0. -/
theorem mark_dead_eviction_consistency (r : ProxyRotator) (e : String)
    (hnds : r.ssl_proxies.Nodup) (hndh : r.http_proxies.Nodup)
    (hcs : cursorOK r.ssl_proxies r.current_ssl_index)
    (hch : cursorOK r.http_proxies r.current_http_index)
    (hmem : e ∈ r.ssl_proxies ∨ e ∈ r.http_proxies) :
    e ∉ ((r.mark_proxy_dead e).2).ssl_proxies
    ∧ e ∉ ((r.mark_proxy_dead e).2).http_proxies
    ∧ (∀ n : Nat, (((r.mark_proxy_dead e).2).rotateSslN n).1 ≠ some e)
    ∧ (∀ n : Nat, (((r.mark_proxy_dead e).2).rotateHttpN n).1 ≠ some e)
    ∧ cursorOK ((r.mark_proxy_dead e).2).ssl_proxies
        ((r.mark_proxy_dead e).2).current_ssl_index
    ∧ cursorOK ((r.mark_proxy_dead e).2).http_proxies
        ((r.mark_proxy_dead e).2).current_http_index
    ∧ (e ∈ r.ssl_proxies → (r.ssl_proxies.erase e).length ≤ r.current_ssl_index →
        ((r.mark_proxy_dead e).2).current_ssl_index = 0)
    ∧ (e ∈ r.http_proxies → (r.http_proxies.erase e).length ≤ r.current_http_index →
        ((r.mark_proxy_dead e).2).current_http_index = 0) := by
  have _hm := hmem
  rw [mark_proxy_dead_snd]
  have h1 := remove_dead_not_mem r.ssl_proxies r.current_ssl_index e hnds
  have h2 := remove_dead_not_mem r.http_proxies r.current_http_index e hndh
  have h3 := remove_dead_cursorOK r.ssl_proxies r.current_ssl_index e hcs
  have h4 := remove_dead_cursorOK r.http_proxies r.current_http_index e hch
  refine ⟨h1, h2, ?_, ?_, h3, h4, ?_, ?_⟩
  · exact fun n => ProxyRotator.rotateSslN_ne_of_not_mem _ e h3 h1 n
  · exact fun n => ProxyRotator.rotateHttpN_ne_of_not_mem _ e h4 h2 n
  · intro hin hle
    show (remove_dead r.ssl_proxies r.current_ssl_index e).2.2 = 0
    rw [remove_dead_of_mem r.ssl_proxies r.current_ssl_index e hin]
    show (if (r.ssl_proxies.erase e).length ≤ r.current_ssl_index then 0
          else r.current_ssl_index) = 0
    rw [if_pos hle]
  · intro hin hle
    show (remove_dead r.http_proxies r.current_http_index e).2.2 = 0
    rw [remove_dead_of_mem r.http_proxies r.current_http_index e hin]
    show (if (r.http_proxies.erase e).length ≤ r.current_http_index then 0
          else r.current_http_index) = 0
    rw [if_pos hle]

/-- Witness for C2 on a concrete rotator whose SSL cursor is pushed out of
range by the removal. -/
theorem mark_dead_eviction_consistency_witness :
    "2.2.2.2:8080" ∉ ((ProxyRotator.mark_proxy_dead
        ⟨["1.1.1.1:443", "2.2.2.2:8080"], ["3.3.3.3:80"], 1, 0⟩ "2.2.2.2:8080").2).ssl_proxies
    ∧ (∀ n : Nat, (((ProxyRotator.mark_proxy_dead
        ⟨["1.1.1.1:443", "2.2.2.2:8080"], ["3.3.3.3:80"], 1, 0⟩ "2.2.2.2:8080").2).rotateSslN n).1
          ≠ some "2.2.2.2:8080")
    ∧ ((ProxyRotator.mark_proxy_dead
        ⟨["1.1.1.1:443", "2.2.2.2:8080"], ["3.3.3.3:80"], 1, 0⟩ "2.2.2.2:8080").2).current_ssl_index
        = 0 := by
  have h := mark_dead_eviction_consistency
    ⟨["1.1.1.1:443", "2.2.2.2:8080"], ["3.3.3.3:80"], 1, 0⟩ "2.2.2.2:8080"
    (by decide) (by decide) (fun _ => by decide) (fun _ => by decide)
    (Or.inl (by decide))
  exact ⟨h.1, h.2.2.1, h.2.2.2.2.2.2.1 (by decide) (by decide)⟩

/-- C10: marking an endpoint that is in neither pool returns False and
changes nothing, and consequently the manager-level mark_proxy_dead adds
nothing to the dead set, leaves all mirrors unchanged and performs no
persistence write. -/
theorem mark_dead_absent_is_noop (r : ProxyRotator) (e : String)
    (hs : e ∉ r.ssl_proxies) (hh : e ∉ r.http_proxies) :
    r.mark_proxy_dead e = (false, r)
    ∧ (∀ m : SmartProxyManager, m.rotator = r → m.mark_proxy_dead e = (m, false)) := by
  have hmark : r.mark_proxy_dead e = (false, r) := by
    refine Prod.ext ?_ ?_
    · rw [mark_proxy_dead_fst, remove_dead_of_not_mem _ _ _ hs,
          remove_dead_of_not_mem _ _ _ hh]
      rfl
    · rw [mark_proxy_dead_snd, remove_dead_of_not_mem _ _ _ hs,
          remove_dead_of_not_mem _ _ _ hh]
  refine ⟨hmark, fun m hm => ?_⟩
  subst hm
  simp only [SmartProxyManager.mark_proxy_dead, hmark]
  rfl

/-- Witness for C10 with an endpoint absent from a concrete rotator and
manager. -/
theorem mark_dead_absent_is_noop_witness :
    ProxyRotator.mark_proxy_dead ⟨["1.1.1.1:443"], ["3.3.3.3:80"], 0, 0⟩ "9.9.9.9:9999"
        = (false, ⟨["1.1.1.1:443"], ["3.3.3.3:80"], 0, 0⟩)
    ∧ SmartProxyManager.mark_proxy_dead
        ⟨⟨["1.1.1.1:443"], ["3.3.3.3:80"], 0, 0⟩, [], ["1.1.1.1:443", "3.3.3.3:80"],
          ["1.1.1.1:443"], ["3.3.3.3:80"], []⟩ "9.9.9.9:9999"
        = (⟨⟨["1.1.1.1:443"], ["3.3.3.3:80"], 0, 0⟩, [], ["1.1.1.1:443", "3.3.3.3:80"],
            ["1.1.1.1:443"], ["3.3.3.3:80"], []⟩, false) := by
  have h := mark_dead_absent_is_noop ⟨["1.1.1.1:443"], ["3.3.3.3:80"], 0, 0⟩ "9.9.9.9:9999"
    (by decide) (by decide)
  exact ⟨h.1, h.2 _ rfl⟩

/-! ## Claim C3: within-pool uniqueness and the cross-pool counterexample -/

lemma addProxies_nodup : ∀ (ps pool : List String), pool.Nodup →
    (addProxies pool ps).Nodup := by
  intro ps
  induction ps with
  | nil => intro pool h; exact h
  | cons p ps ih =>
    intro pool h
    show (addProxies (if p ∈ pool then pool else pool ++ [p]) ps).Nodup
    apply ih
    by_cases hp : p ∈ pool
    · rw [if_pos hp]; exact h
    · rw [if_neg hp, List.nodup_append]
      exact ⟨h, List.nodup_singleton p, fun a ha hb => hp ((List.mem_singleton.mp hb) ▸ ha)⟩

lemma mem_addProxies_of_mem : ∀ (ps pool : List String) (x : String),
    x ∈ pool → x ∈ addProxies pool ps := by
  intro ps
  induction ps with
  | nil => intro pool x h; exact h
  | cons p ps ih =>
    intro pool x h
    show x ∈ addProxies (if p ∈ pool then pool else pool ++ [p]) ps
    apply ih
    by_cases hp : p ∈ pool
    · rw [if_pos hp]; exact h
    · rw [if_neg hp]; exact List.mem_append_left _ h

/-- C3 counterexample: cross-pool exclusivity fails. Loading a new-format
file that lists the same endpoint under both pool keys puts that endpoint
into the SSL pool and the HTTP pool of the rotator at once, a reachable
engine state that violates the claimed mutual exclusion. -/
theorem cross_pool_exclusivity_cex :
    "1.2.3.4:8080" ∈ (SmartProxyManager.initManager.load_saved_proxies
        (some ⟨none, some ["1.2.3.4:8080"], some ["1.2.3.4:8080"]⟩)).rotator.ssl_proxies
    ∧ "1.2.3.4:8080" ∈ (SmartProxyManager.initManager.load_saved_proxies
        (some ⟨none, some ["1.2.3.4:8080"], some ["1.2.3.4:8080"]⟩)).rotator.http_proxies := by
  decide

/-- C3 amended: no endpoint appears twice within the same pool - the add
operations preserve within-pool uniqueness and never touch the other
pool, and load returns duplicate-free pools for every on-disk shape;
cross-pool exclusivity, however, is not enforced. -/
theorem within_pool_dedup_preserved :
    (∀ (r : ProxyRotator) (ps : List String), r.ssl_proxies.Nodup →
        ((r.add_ssl_proxies ps).ssl_proxies.Nodup
          ∧ (r.add_ssl_proxies ps).http_proxies = r.http_proxies))
    ∧ (∀ (r : ProxyRotator) (ps : List String), r.http_proxies.Nodup →
        ((r.add_http_proxies ps).http_proxies.Nodup
          ∧ (r.add_http_proxies ps).ssl_proxies = r.ssl_proxies))
    ∧ (∀ file : Option ProxyFile,
        (ProxyStorage.load_saved_proxies file).1.Nodup
        ∧ (ProxyStorage.load_saved_proxies file).2.Nodup) := by
  refine ⟨fun r ps h => ⟨addProxies_nodup ps r.ssl_proxies h, rfl⟩,
          fun r ps h => ⟨addProxies_nodup ps r.http_proxies h, rfl⟩,
          fun file => ?_⟩
  rcases file with _ | ⟨w, os, oh⟩
  · exact ⟨List.nodup_nil, List.nodup_nil⟩
  · rcases os with _ | ssl
    · rcases oh with _ | http
      · exact ⟨List.Nodup.filter _ (deduplicate_nodup _),
               List.Nodup.filter _ (deduplicate_nodup _)⟩
      · exact ⟨List.Nodup.filter _ (deduplicate_nodup _),
               List.Nodup.filter _ (deduplicate_nodup _)⟩
    · rcases oh with _ | http
      · exact ⟨List.Nodup.filter _ (deduplicate_nodup _),
               List.Nodup.filter _ (deduplicate_nodup _)⟩
      · exact ⟨deduplicate_nodup _, deduplicate_nodup _⟩

/-- Witness for C3 amended on concrete pools and a concrete file. -/
theorem within_pool_dedup_preserved_witness :
    ((ProxyRotator.add_ssl_proxies ⟨["1.1.1.1:443"], [], 0, 0⟩
        ["1.1.1.1:443", "2.2.2.2:8080"]).ssl_proxies.Nodup
      ∧ (ProxyRotator.add_ssl_proxies ⟨["1.1.1.1:443"], [], 0, 0⟩
        ["1.1.1.1:443", "2.2.2.2:8080"]).http_proxies = [])
    ∧ ((ProxyRotator.add_http_proxies ⟨[], ["3.3.3.3:80"], 0, 0⟩
        ["3.3.3.3:80", "4.4.4.4:80"]).http_proxies.Nodup
      ∧ (ProxyRotator.add_http_proxies ⟨[], ["3.3.3.3:80"], 0, 0⟩
        ["3.3.3.3:80", "4.4.4.4:80"]).ssl_proxies = [])
    ∧ ((ProxyStorage.load_saved_proxies
        (some ⟨some ["1.2.3.4:443", "1.2.3.4:443", "5.6.7.8:80"], none, none⟩)).1.Nodup
      ∧ (ProxyStorage.load_saved_proxies
        (some ⟨some ["1.2.3.4:443", "1.2.3.4:443", "5.6.7.8:80"], none, none⟩)).2.Nodup) :=
  ⟨within_pool_dedup_preserved.1 ⟨["1.1.1.1:443"], [], 0, 0⟩
      ["1.1.1.1:443", "2.2.2.2:8080"] (by decide),
   within_pool_dedup_preserved.2.1 ⟨[], ["3.3.3.3:80"], 0, 0⟩
      ["3.3.3.3:80", "4.4.4.4:80"] (by decide),
   within_pool_dedup_preserved.2.2
      (some ⟨some ["1.2.3.4:443", "1.2.3.4:443", "5.6.7.8:80"], none, none⟩)⟩

/-! ## Lemmas about the fetch loop and claim C4 -/

lemma fetch_loop_cons_some (mW : Nat) (ws wh : List String)
    (rest : List (Option (List String × List String)))
    (accS accH : List String) (c lg : Nat) :
    ProxyFetcher.fetch_loop mW (some (ws, wh) :: rest) accS accH c lg
      = if 20 ≤ (accS ++ ws).length + (accH ++ wh).length then
          ⟨accS ++ ws, accH ++ wh, c + 1,
           if mW ≤ (accS ++ ws).length + (accH ++ wh).length then lg + 1 else lg⟩
        else ProxyFetcher.fetch_loop mW rest (accS ++ ws) (accH ++ wh) (c + 1)
               (if mW ≤ (accS ++ ws).length + (accH ++ wh).length then lg + 1 else lg) := rfl

lemma totalYield_cons_none (rest : List (Option (List String × List String))) :
    ProxyFetcher.totalYield (none :: rest) = ProxyFetcher.totalYield rest := by
  simp [ProxyFetcher.totalYield, ProxyFetcher.sourceYield]

lemma totalYield_cons_some (ws wh : List String)
    (rest : List (Option (List String × List String))) :
    ProxyFetcher.totalYield (some (ws, wh) :: rest)
      = ws.length + wh.length + ProxyFetcher.totalYield rest := by
  simp [ProxyFetcher.totalYield, ProxyFetcher.sourceYield]

lemma fetch_loop_runs_all (mW : Nat) :
    ∀ (srcs : List (Option (List String × List String)))
      (accS accH : List String) (c lg : Nat),
    accS.length + accH.length + ProxyFetcher.totalYield srcs < 20 →
    (ProxyFetcher.fetch_loop mW srcs accS accH c lg).ssl
        = accS ++ ProxyFetcher.allSslYield srcs
    ∧ (ProxyFetcher.fetch_loop mW srcs accS accH c lg).http
        = accH ++ ProxyFetcher.allHttpYield srcs
    ∧ (ProxyFetcher.fetch_loop mW srcs accS accH c lg).consulted = c + srcs.length := by
  intro srcs
  induction srcs with
  | nil =>
    intro accS accH c lg _
    exact ⟨(List.append_nil _).symm, (List.append_nil _).symm, rfl⟩
  | cons hd rest ih =>
    intro accS accH c lg h
    rcases hd with _ | ⟨ws, wh⟩
    · have h' : accS.length + accH.length + ProxyFetcher.totalYield rest < 20 := by
        rw [totalYield_cons_none] at h
        exact h
      obtain ⟨e1, e2, e3⟩ := ih accS accH (c + 1) lg h'
      refine ⟨e1, e2, ?_⟩
      show (ProxyFetcher.fetch_loop mW rest accS accH (c + 1) lg).consulted
        = c + (none :: rest).length
      rw [e3, List.length_cons]
      omega
    · rw [totalYield_cons_some] at h
      rw [fetch_loop_cons_some]
      have hlt : ¬ (20 ≤ (accS ++ ws).length + (accH ++ wh).length) := by
        rw [List.length_append, List.length_append]
        omega
      rw [if_neg hlt]
      obtain ⟨e1, e2, e3⟩ := ih (accS ++ ws) (accH ++ wh) (c + 1)
        (if mW ≤ (accS ++ ws).length + (accH ++ wh).length then lg + 1 else lg)
        (by rw [List.length_append, List.length_append]; omega)
      refine ⟨?_, ?_, ?_⟩
      · rw [e1, List.append_assoc]
        rfl
      · rw [e2, List.append_assoc]
        rfl
      · rw [e3, List.length_cons]
        omega

lemma fetch_loop_min_independent :
    ∀ (srcs : List (Option (List String × List String)))
      (accS accH : List String) (c lg1 lg2 m1 m2 : Nat),
    (ProxyFetcher.fetch_loop m1 srcs accS accH c lg1).ssl
        = (ProxyFetcher.fetch_loop m2 srcs accS accH c lg2).ssl
    ∧ (ProxyFetcher.fetch_loop m1 srcs accS accH c lg1).http
        = (ProxyFetcher.fetch_loop m2 srcs accS accH c lg2).http
    ∧ (ProxyFetcher.fetch_loop m1 srcs accS accH c lg1).consulted
        = (ProxyFetcher.fetch_loop m2 srcs accS accH c lg2).consulted := by
  intro srcs
  induction srcs with
  | nil => intro accS accH c lg1 lg2 m1 m2; exact ⟨rfl, rfl, rfl⟩
  | cons hd rest ih =>
    intro accS accH c lg1 lg2 m1 m2
    rcases hd with _ | ⟨ws, wh⟩
    · exact ih accS accH (c + 1) lg1 lg2 m1 m2
    · rw [fetch_loop_cons_some, fetch_loop_cons_some]
      by_cases h20 : 20 ≤ (accS ++ ws).length + (accH ++ wh).length
      · rw [if_pos h20, if_pos h20]
        exact ⟨rfl, rfl, rfl⟩
      · rw [if_neg h20, if_neg h20]
        exact ih (accS ++ ws) (accH ++ wh) (c + 1) _ _ m1 m2

/-- C4: the source loop stops exactly when the running combined total of
working endpoints reaches 20 - for sources yielding 12 then 15 working
endpoints it stops after the second source without consulting a third -
while below 20 it always continues through every source, and the
configured minimum has no influence on pools or on how many sources are
consulted. -/
theorem fetch_stops_exactly_at_large_pool :
    (∀ (minW : Nat) (ws1 wh1 ws2 wh2 : List String)
        (rest : List (Option (List String × List String))),
      ws1.length + wh1.length = 12 → ws2.length + wh2.length = 15 →
        (ProxyFetcher.fetch_new_proxies_async minW
            (some (ws1, wh1) :: some (ws2, wh2) :: rest)).ssl = ws1 ++ ws2
        ∧ (ProxyFetcher.fetch_new_proxies_async minW
            (some (ws1, wh1) :: some (ws2, wh2) :: rest)).http = wh1 ++ wh2
        ∧ (ProxyFetcher.fetch_new_proxies_async minW
            (some (ws1, wh1) :: some (ws2, wh2) :: rest)).consulted = 2)
    ∧ (∀ (minW : Nat) (srcs : List (Option (List String × List String))),
        ProxyFetcher.totalYield srcs < 20 →
        (ProxyFetcher.fetch_new_proxies_async minW srcs).ssl
            = ProxyFetcher.allSslYield srcs
        ∧ (ProxyFetcher.fetch_new_proxies_async minW srcs).http
            = ProxyFetcher.allHttpYield srcs
        ∧ (ProxyFetcher.fetch_new_proxies_async minW srcs).consulted = srcs.length)
    ∧ (∀ (m1 m2 : Nat) (srcs : List (Option (List String × List String))),
        (ProxyFetcher.fetch_new_proxies_async m1 srcs).ssl
            = (ProxyFetcher.fetch_new_proxies_async m2 srcs).ssl
        ∧ (ProxyFetcher.fetch_new_proxies_async m1 srcs).http
            = (ProxyFetcher.fetch_new_proxies_async m2 srcs).http
        ∧ (ProxyFetcher.fetch_new_proxies_async m1 srcs).consulted
            = (ProxyFetcher.fetch_new_proxies_async m2 srcs).consulted) := by
  refine ⟨?_, ?_, ?_⟩
  · intro minW ws1 wh1 ws2 wh2 rest h1 h2
    simp only [ProxyFetcher.fetch_new_proxies_async]
    rw [fetch_loop_cons_some]
    have c1 : ¬ (20 ≤ (([] : List String) ++ ws1).length
        + (([] : List String) ++ wh1).length) := by
      simp only [List.nil_append]
      omega
    rw [if_neg c1, fetch_loop_cons_some]
    have c2 : 20 ≤ ((([] : List String) ++ ws1) ++ ws2).length
        + ((([] : List String) ++ wh1) ++ wh2).length := by
      simp only [List.nil_append, List.length_append]
      omega
    rw [if_pos c2]
    exact ⟨by simp, by simp, rfl⟩
  · intro minW srcs h
    have hall := fetch_loop_runs_all minW srcs [] [] 0 0 (by simpa using h)
    simpa [ProxyFetcher.fetch_new_proxies_async] using hall
  · intro m1 m2 srcs
    exact fetch_loop_min_independent srcs [] [] 0 0 0 m1 m2

/-- Witness for C4 on concrete sources yielding 12, 15 and 1 working
endpoints, a single small source, and two different minimum settings. -/
theorem fetch_stops_exactly_at_large_pool_witness :
    ((ProxyFetcher.fetch_new_proxies_async 3
        (some (List.replicate 12 "1.1.1.1:443", []) :: some (List.replicate 15 "2.2.2.2:443", [])
          :: [some (["3.3.3.3:443"], [])])).ssl
        = List.replicate 12 "1.1.1.1:443" ++ List.replicate 15 "2.2.2.2:443"
      ∧ (ProxyFetcher.fetch_new_proxies_async 3
        (some (List.replicate 12 "1.1.1.1:443", []) :: some (List.replicate 15 "2.2.2.2:443", [])
          :: [some (["3.3.3.3:443"], [])])).http = [] ++ []
      ∧ (ProxyFetcher.fetch_new_proxies_async 3
        (some (List.replicate 12 "1.1.1.1:443", []) :: some (List.replicate 15 "2.2.2.2:443", [])
          :: [some (["3.3.3.3:443"], [])])).consulted = 2)
    ∧ ((ProxyFetcher.fetch_new_proxies_async 3 [some (["4.4.4.4:80"], [])]).ssl
        = ProxyFetcher.allSslYield [some (["4.4.4.4:80"], [])]
      ∧ (ProxyFetcher.fetch_new_proxies_async 3 [some (["4.4.4.4:80"], [])]).http
        = ProxyFetcher.allHttpYield [some (["4.4.4.4:80"], [])]
      ∧ (ProxyFetcher.fetch_new_proxies_async 3 [some (["4.4.4.4:80"], [])]).consulted = 1)
    ∧ ((ProxyFetcher.fetch_new_proxies_async 3 [none]).ssl
        = (ProxyFetcher.fetch_new_proxies_async 10 [none]).ssl
      ∧ (ProxyFetcher.fetch_new_proxies_async 3 [none]).http
        = (ProxyFetcher.fetch_new_proxies_async 10 [none]).http
      ∧ (ProxyFetcher.fetch_new_proxies_async 3 [none]).consulted
        = (ProxyFetcher.fetch_new_proxies_async 10 [none]).consulted) :=
  ⟨fetch_stops_exactly_at_large_pool.1 3 (List.replicate 12 "1.1.1.1:443") []
      (List.replicate 15 "2.2.2.2:443") [] [some (["3.3.3.3:443"], [])]
      (by simp) (by simp),
   fetch_stops_exactly_at_large_pool.2.1 3 [some (["4.4.4.4:80"], [])] (by decide),
   fetch_stops_exactly_at_large_pool.2.2 3 10 [none]⟩

/-! ## Lemmas about the validator and claims C5 and C1 -/

lemma validate_proxies_async_of_ne_empty (probeSSL probeHTTP : String → Bool)
    (ssl_only : Bool) (dead proxies : List String)
    (hne : proxies.isEmpty = false) :
    validate_proxies_async probeSSL probeHTTP ssl_only dead proxies
      = ⟨(proxies.filter _is_ssl_capable_port).filter probeSSL,
         (if ssl_only then []
          else proxies.filter (fun p => ! _is_ssl_capable_port p)).filter probeHTTP,
         dead ++ (proxies.filter _is_ssl_capable_port).filter (fun p => ! probeSSL p)
              ++ (if ssl_only then []
                  else proxies.filter (fun p => ! _is_ssl_capable_port p)).filter
                    (fun p => ! probeHTTP p)⟩ := by
  simp [validate_proxies_async, hne]

/-- C5: an endpoint whose strict-certificate pass fails on every test URL
but whose relaxed-certificate pass answers 200 on some test URL gets a
successful SSL probe, is placed in the working SSL list by the validator
and not in its dead set; and whenever some strict attempt answers 200 the
relaxed oracle has no influence on the probe, so the relaxed pass only
matters after the strict pass has failed. -/
theorem ssl_relaxed_fallback_classified_working
    (strict relaxed : String → Option Nat) (e : String)
    (probeSSL probeHTTP : String → Bool) (ssl_only : Bool)
    (dead proxies : List String)
    (hport : _is_ssl_capable_port e = true) (hmem : e ∈ proxies)
    (hstrict : ∀ u ∈ test_urls, ¬ strict u = some 200)
    (hrelax : ∃ u ∈ test_urls, relaxed u = some 200)
    (hp : probeSSL e = _validate_ssl_proxy_async strict relaxed) :
    _validate_ssl_proxy_async strict relaxed = true
    ∧ e ∈ (validate_proxies_async probeSSL probeHTTP ssl_only dead proxies).working_ssl
    ∧ (e ∈ (validate_proxies_async probeSSL probeHTTP ssl_only dead proxies).dead →
        e ∈ dead)
    ∧ (∀ (strict' r1 r2 : String → Option Nat),
        (∃ u ∈ test_urls, strict' u = some 200) →
        _validate_ssl_proxy_async strict' r1 = _validate_ssl_proxy_async strict' r2) := by
  have hsf : test_urls.any (fun u => strict u == some 200) = false := by
    rw [List.any_eq_false]
    intro u hu
    simpa using hstrict u hu
  have hrt : test_urls.any (fun u => relaxed u == some 200) = true := by
    rw [List.any_eq_true]
    obtain ⟨u, hu, h200⟩ := hrelax
    exact ⟨u, hu, by simpa using h200⟩
  have hprobe : _validate_ssl_proxy_async strict relaxed = true := by
    simp [_validate_ssl_proxy_async, hsf, hrt]
  have hne : proxies.isEmpty = false :=
    List.isEmpty_eq_false.mpr (List.ne_nil_of_mem hmem)
  have hout := validate_proxies_async_of_ne_empty probeSSL probeHTTP ssl_only dead proxies hne
  refine ⟨hprobe, ?_, ?_, ?_⟩
  · rw [hout]
    show e ∈ (proxies.filter _is_ssl_capable_port).filter probeSSL
    exact List.mem_filter.mpr ⟨List.mem_filter.mpr ⟨hmem, hport⟩, by rw [hp, hprobe]⟩
  · rw [hout]
    intro hin
    rcases List.mem_append.mp hin with hin1 | hin2
    · rcases List.mem_append.mp hin1 with hd | hf
      · exact hd
      · have hb := (List.mem_filter.mp hf).2
        rw [hp, hprobe] at hb
        simp at hb
    · cases ssl_only
      · simp only [Bool.false_eq_true, if_false] at hin2
        have hb := (List.mem_filter.mp ((List.mem_filter.mp hin2).1)).2
        rw [hport] at hb
        simp at hb
      · simp at hin2
  · intro strict' r1 r2 hex
    have h1 : test_urls.any (fun u => strict' u == some 200) = true := by
      rw [List.any_eq_true]
      obtain ⟨u, hu, h200⟩ := hex
      exact ⟨u, hu, by simpa using h200⟩
    simp [_validate_ssl_proxy_async, h1]

/-- Witness for C5: a proxy for which every strict attempt raises and
every relaxed attempt answers 200. -/
theorem ssl_relaxed_fallback_classified_working_witness :
    _validate_ssl_proxy_async (fun _ => none) (fun _ => some 200) = true
    ∧ "1.2.3.4:443" ∈ (validate_proxies_async
        (fun _ => _validate_ssl_proxy_async (fun _ => none) (fun _ => some 200))
        (fun _ => false) true [] ["1.2.3.4:443"]).working_ssl
    ∧ ("1.2.3.4:443" ∈ (validate_proxies_async
        (fun _ => _validate_ssl_proxy_async (fun _ => none) (fun _ => some 200))
        (fun _ => false) true [] ["1.2.3.4:443"]).dead →
        "1.2.3.4:443" ∈ ([] : List String))
    ∧ (∀ (strict' r1 r2 : String → Option Nat),
        (∃ u ∈ test_urls, strict' u = some 200) →
        _validate_ssl_proxy_async strict' r1 = _validate_ssl_proxy_async strict' r2) :=
  ssl_relaxed_fallback_classified_working (fun _ => none) (fun _ => some 200)
    "1.2.3.4:443"
    (fun _ => _validate_ssl_proxy_async (fun _ => none) (fun _ => some 200))
    (fun _ => false) true [] ["1.2.3.4:443"]
    (by decide) (by decide) (by intro u _; simp)
    ⟨"https://icanhazip.com", by decide, rfl⟩ rfl

/-- C1 counterexample: an endpoint loaded from the legacy cache into the
SSL pool that then fails quick validation is recorded in the Validator
dead set yet remains in the SSL pool, so a Dead Set member is not absent
from the pools after load followed by validation. -/
theorem dead_set_member_still_in_pool_cex :
    "1.2.3.4:8080" ∈ ((SmartProxyManager.initManager.load_saved_proxies
        (some ⟨some ["1.2.3.4:8080"], none, none⟩)).quick_validate_proxies
          (fun _ => false) (fun _ => false) true
          (SmartProxyManager.initManager.load_saved_proxies
            (some ⟨some ["1.2.3.4:8080"], none, none⟩)).working_proxies).validator_dead
    ∧ "1.2.3.4:8080" ∈ ((SmartProxyManager.initManager.load_saved_proxies
        (some ⟨some ["1.2.3.4:8080"], none, none⟩)).quick_validate_proxies
          (fun _ => false) (fun _ => false) true
          (SmartProxyManager.initManager.load_saved_proxies
            (some ⟨some ["1.2.3.4:8080"], none, none⟩)).working_proxies).rotator.ssl_proxies := by
  decide

/-- C1 amended: a validated endpoint that fails its probe enters the
Validator dead set but is not removed from the Rotator pools - an
endpoint already present in the SSL pool, as after load_saved_proxies,
stays there through quick_validate_proxies, so Dead Set membership does
not imply absence from the pools; eviction happens only through
mark_proxy_dead. -/
theorem failed_validation_remains_in_pool
    (m : SmartProxyManager) (probeSSL probeHTTP : String → Bool) (ssl_only : Bool)
    (proxies : List String) (e : String)
    (hpool : e ∈ m.rotator.ssl_proxies) (hmem : e ∈ proxies)
    (hport : _is_ssl_capable_port e = true) (hfail : probeSSL e = false) :
    e ∈ (m.quick_validate_proxies probeSSL probeHTTP ssl_only proxies).validator_dead
    ∧ e ∈ (m.quick_validate_proxies probeSSL probeHTTP ssl_only proxies).rotator.ssl_proxies := by
  have hne : proxies.isEmpty = false :=
    List.isEmpty_eq_false.mpr (List.ne_nil_of_mem hmem)
  have hdead : (m.quick_validate_proxies probeSSL probeHTTP ssl_only proxies).validator_dead
      = (validate_proxies_async probeSSL probeHTTP ssl_only m.validator_dead proxies).dead := by
    simp [SmartProxyManager.quick_validate_proxies, hne]
  have hssl : (m.quick_validate_proxies probeSSL probeHTTP ssl_only proxies).rotator.ssl_proxies
      = addProxies m.rotator.ssl_proxies
          (validate_proxies_async probeSSL probeHTTP ssl_only m.validator_dead proxies).working_ssl := by
    simp [SmartProxyManager.quick_validate_proxies, hne,
          ProxyRotator.add_http_proxies, ProxyRotator.add_ssl_proxies]
  constructor
  · rw [hdead, validate_proxies_async_of_ne_empty _ _ _ _ _ hne]
    refine List.mem_append.mpr (Or.inl (List.mem_append.mpr (Or.inr ?_)))
    exact List.mem_filter.mpr ⟨List.mem_filter.mpr ⟨hmem, hport⟩, by rw [hfail]; rfl⟩
  · rw [hssl]
    exact mem_addProxies_of_mem _ _ _ hpool

/-- Witness for C1 amended: the loaded legacy endpoint with an
always-failing probe. -/
theorem failed_validation_remains_in_pool_witness :
    "1.2.3.4:8080" ∈ ((SmartProxyManager.initManager.load_saved_proxies
        (some ⟨some ["1.2.3.4:8080"], none, none⟩)).quick_validate_proxies
          (fun _ => false) (fun _ => true) true ["1.2.3.4:8080"]).validator_dead
    ∧ "1.2.3.4:8080" ∈ ((SmartProxyManager.initManager.load_saved_proxies
        (some ⟨some ["1.2.3.4:8080"], none, none⟩)).quick_validate_proxies
          (fun _ => false) (fun _ => true) true ["1.2.3.4:8080"]).rotator.ssl_proxies :=
  failed_validation_remains_in_pool
    (SmartProxyManager.initManager.load_saved_proxies
      (some ⟨some ["1.2.3.4:8080"], none, none⟩))
    (fun _ => false) (fun _ => true) true ["1.2.3.4:8080"] "1.2.3.4:8080"
    (by decide) (by decide) (by decide) rfl
